import Mathlib

/-!
Verification of the mcs-core session/floor orchestrator (bbb-webrtc-sfu).

Each section shallowly embeds one slice of the JavaScript source:

* `Room` — the content/conference floor bookkeeping of
  `lib/mcs-core/lib/model/room.js` (floor setters, MRU previous-floor
  history, and the MEDIA_DISCONNECTED handlers).
* `Sdp` — the SDP session model of `lib/mcs-core/lib/model/sdp-session.js`
  (negotiation-role state machine, DTMF aggregation, answer reassembly and
  the codec-availability checks of `process()`).
* `Kur` — the Kurento adapter state of
  `lib/mcs-core/lib/adapters/kurento/kurento.js` (pipeline/element
  accounting and cross-host transposers).
* `Ctrl` — the controller facade of
  `lib/mcs-core/lib/media/media-controller.js` (`leave` and `connect`).

JavaScript objects become Lean structures; `Promise` results become
`Except`; backend calls that only talk to the media server are recorded as
actions or in a `released` log.  Truthiness of a JS string is modelled by
`jsTruthy` (empty string falsy).
-/

/-- Truthiness of a JavaScript string: every string except `''` is truthy. -/
def jsTruthy (s : String) : Bool := s ≠ ""

namespace Room

/-- Snapshot returned by a media unit's `getMediaInfo()`.
Modelled from the spec: `media.js` (the media unit model) is not under
`src/`; per the spec's data model a floor snapshot is a `MediaInfo` that
reports the unit's own id as `mediaId`. Only the `mediaId` field is read by
the floor code. -/
structure MediaInfo where
  mediaId : String
deriving DecidableEq, Repr

/-- A media unit as the room's floor logic sees it: it carries its id.
Modelled from the spec: `media.js` is not under `src/`. -/
structure MediaUnit where
  id : String
deriving DecidableEq, Repr

/-- `media.getMediaInfo()` as read by the disconnection handlers. -/
def MediaUnit.getMediaInfo (m : MediaUnit) : MediaInfo := { mediaId := m.id }

/-- The argument of `setContentFloor`: a media session exposing
`getContentMedia()`.  Modelled from the spec: `media-session.js` is not
under `src/`; per the spec, `setContentFloor(media)` replaces the current
content floor with `media.getContentMedia()`, the session's content media
unit. -/
structure MediaSessionRef where
  contentMedia : MediaUnit
deriving DecidableEq, Repr

/-- `media.getContentMedia()` of the session. -/
def MediaSessionRef.getContentMedia (m : MediaSessionRef) : MediaUnit :=
  m.contentMedia

/-- The floor-related state of a `Room` (room.js constructor):
`_contentFloor`, `_previousContentFloors`, `_conferenceFloor`,
`_previousConferenceFloors`, plus the room's `id`. -/
structure RoomState where
  id : String
  contentFloor : Option MediaUnit
  previousContentFloors : List MediaUnit
  conferenceFloor : Option MediaUnit
  previousConferenceFloors : List MediaUnit
deriving DecidableEq, Repr

/-- room.js `MAX_PREVIOUS_FLOORS`. -/
def MAX_PREVIOUS_FLOORS : Nat := 10

/-- `FloorInfo` snapshot: `{ floor, previousFloor }` as built by
`getContentFloor` / `getConferenceFloor`. `previousFloor` is `undefined`
when the history is empty. -/
structure FloorInfo where
  floor : Option MediaInfo
  previousFloor : Option (List MediaInfo)
deriving DecidableEq, Repr

/-- room.js `getContentFloor()`. -/
def getContentFloor (r : RoomState) : FloorInfo :=
  { floor := r.contentFloor.map MediaUnit.getMediaInfo
    previousFloor :=
      if r.previousContentFloors.length ≤ 0 then none
      else some ((r.previousContentFloors.take MAX_PREVIOUS_FLOORS).map
        MediaUnit.getMediaInfo) }

/-- room.js `getConferenceFloor()`. -/
def getConferenceFloor (r : RoomState) : FloorInfo :=
  { floor := r.conferenceFloor.map MediaUnit.getMediaInfo
    previousFloor :=
      if r.previousConferenceFloors.length ≤ 0 then none
      else some ((r.previousConferenceFloors.take MAX_PREVIOUS_FLOORS).map
        MediaUnit.getMediaInfo) }

/-- room.js `_setPreviousContentFloor()`: drop history entries with the
current floor's id, then unshift the current floor.  The source reads
`this._contentFloor.id` and is only called with a current floor present. -/
def setPreviousContentFloor (r : RoomState) : RoomState :=
  match r.contentFloor with
  | none => r
  | some cf =>
    { r with previousContentFloors :=
        cf :: r.previousContentFloors.filter (fun pcf => decide (pcf.id ≠ cf.id)) }

/-- room.js `_setPreviousConferenceFloor()`. -/
def setPreviousConferenceFloor (r : RoomState) : RoomState :=
  match r.conferenceFloor with
  | none => r
  | some cf =>
    { r with previousConferenceFloors :=
        cf :: r.previousConferenceFloors.filter (fun pcf => decide (pcf.id ≠ cf.id)) }

/-- room.js `setContentFloor(media)`: the previous floor is archived only
when a current floor exists, the history head exists, and the head's id
differs from the current floor's id; then the floor becomes
`media.getContentMedia()`.  (The `CONTENT_FLOOR_CHANGED` emission carries
no state.) -/
def setContentFloor (r : RoomState) (media : MediaSessionRef) : RoomState :=
  let r1 :=
    match r.contentFloor, r.previousContentFloors with
    | some cf, pcf :: _ => if pcf.id ≠ cf.id then setPreviousContentFloor r else r
    | _, _ => r
  { r1 with contentFloor := some media.getContentMedia }

/-- room.js `releaseContentFloor()`: when a floor is present it is pushed
onto the history and cleared; the call returns
`this._previousContentFloors[0]`. -/
def releaseContentFloor (r : RoomState) : RoomState × Option MediaUnit :=
  let r1 :=
    if r.contentFloor.isSome then
      let r2 := setPreviousContentFloor r
      { r2 with contentFloor := none }
    else r
  (r1, r1.previousContentFloors.head?)

/-- room.js `releaseConferenceFloor()`. -/
def releaseConferenceFloor (r : RoomState) : RoomState × Option MediaUnit :=
  let r1 :=
    if r.conferenceFloor.isSome then
      let r2 := setPreviousConferenceFloor r
      { r2 with conferenceFloor := none }
    else r
  (r1, r1.previousConferenceFloors.head?)

/-- A `MEDIA_DISCONNECTED` event as destructured by the handlers:
`{ mediaId, roomId, mediaSessionId }`.  `mediaSessionId` may be absent. -/
structure DisconnectEvent where
  mediaId : String
  roomId : String
  mediaSessionId : Option String
deriving DecidableEq, Repr

/-- room.js `_trackContentMediaDisconnection`'s `clearContentFloor`
callback: for an event of this room, release the content floor when the
event's `mediaId` (or `mediaSessionId`) equals the floor snapshot's
`mediaId`, then drop the disconnected media from the history. -/
def clearContentFloor (r : RoomState) (ev : DisconnectEvent) : RoomState :=
  if ev.roomId = r.id then
    let floor := (getContentFloor r).floor
    let r1 :=
      match floor with
      | some f =>
        if ev.mediaId = f.mediaId ∨ ev.mediaSessionId = some f.mediaId then
          (releaseContentFloor r).1
        else r
      | none => r
    { r1 with previousContentFloors :=
        r1.previousContentFloors.filter (fun pcf => decide (pcf.id ≠ ev.mediaId)) }
  else r

/-- room.js `_trackConferenceMediaDisconnection`'s `clearConferenceFloor`
callback.  NOTE: the source reads `this.getContentFloor()` (not
`getConferenceFloor`) to decide whether to release the conference floor;
this embedding reproduces that line faithfully. -/
def clearConferenceFloor (r : RoomState) (ev : DisconnectEvent) : RoomState :=
  if ev.roomId = r.id then
    let floor := (getContentFloor r).floor
    let r1 :=
      match floor with
      | some f =>
        if ev.mediaId = f.mediaId ∨ ev.mediaSessionId = some f.mediaId then
          (releaseConferenceFloor r).1
        else r
      | none => r
    { r1 with previousConferenceFloors :=
        r1.previousConferenceFloors.filter (fun pcf => decide (pcf.id ≠ ev.mediaId)) }
  else r

/-- Both registered `MEDIA_DISCONNECTED` listeners of a room, in
registration order (content first, then conference). -/
def handleMediaDisconnected (r : RoomState) (ev : DisconnectEvent) : RoomState :=
  clearConferenceFloor (clearContentFloor r ev) ev

end Room

namespace Sdp

/-- sdp-session.js negotiation roles (`C.NEGOTIATION_ROLE`); the unset role
is the falsy empty string, modelled as `Option.none`. -/
inductive Role where
  | offerer
  | answerer
deriving DecidableEq, Repr

/-- The descriptor/role slice of an `SDPSession`: `_remoteDescriptor`,
`_localDescriptor` (present iff an `SdpWrapper` was built, storing the raw
descriptor string), `negotiationRole`, `shouldRenegotiate` and
`_shouldProcessRemoteDescriptorAsAnswerer`.  The `mediaSpecs` update done
through the missing sdp-wrapper utility touches no field modelled here. -/
structure SessState where
  remoteDescriptor : Option String
  localDescriptor : Option String
  negotiationRole : Option Role
  shouldRenegotiate : Bool
  shouldProcessRemoteDescriptorAsAnswerer : Bool
deriving DecidableEq, Repr

/-- The state after the `SDPSession` constructor (before any descriptor is
assigned). -/
def sessInit : SessState :=
  { remoteDescriptor := none, localDescriptor := none, negotiationRole := none
    shouldRenegotiate := false, shouldProcessRemoteDescriptorAsAnswerer := false }

/-- sdp-session.js `set remoteDescriptor`: a falsy value is ignored; the
role becomes ANSWERER when no local descriptor and no role exist yet; a
second remote flags `shouldRenegotiate`; a remote arriving with role
OFFERER flags `shouldProcessRemoteDescriptorAsAnswerer` (whose setter only
emits an event); finally the wrapper is stored. -/
def setRemoteDescriptor (s : SessState) (v : String) : SessState :=
  if jsTruthy v then
    let role1 :=
      if s.localDescriptor = none ∧ s.negotiationRole = none then some Role.answerer
      else s.negotiationRole
    let renegFlags :=
      if s.remoteDescriptor.isSome then
        (true, s.shouldProcessRemoteDescriptorAsAnswerer)
      else if role1 = some Role.offerer then (s.shouldRenegotiate, true)
      else (s.shouldRenegotiate, s.shouldProcessRemoteDescriptorAsAnswerer)
    { s with negotiationRole := role1
             shouldRenegotiate := renegFlags.1
             shouldProcessRemoteDescriptorAsAnswerer := renegFlags.2
             remoteDescriptor := some v }
  else s

/-- sdp-session.js `set localDescriptor`: a falsy value is ignored; the
wrapper is stored first, then the role becomes OFFERER when no remote
descriptor and no role exist. -/
def setLocalDescriptor (s : SessState) (v : String) : SessState :=
  if jsTruthy v then
    let s1 := { s with localDescriptor := some v }
    if s1.remoteDescriptor = none ∧ s1.negotiationRole = none then
      { s1 with negotiationRole := some Role.offerer }
    else s1
  else s

/-- A descriptor assignment on the session's setters. -/
inductive SessEv where
  | setRemote (v : String)
  | setLocal (v : String)
deriving DecidableEq, Repr

/-- One setter invocation. -/
def sessStep (s : SessState) : SessEv → SessState
  | .setRemote v => setRemoteDescriptor s v
  | .setLocal v => setLocalDescriptor s v

/-- A sequence of setter invocations from a given state. -/
def sessRun (s : SessState) (evs : List SessEv) : SessState :=
  evs.foldl sessStep s

/-- sdp-session.js `DEFAULT_DTMF_TIMEOUT` (milliseconds).  Real time is not
modelled; the pending timer is the Boolean `timerActive`, and "before the
timeout expires" is the absence of a timer-fire step. -/
def DEFAULT_DTMF_TIMEOUT : Nat := 3000

/-- sdp-session.js `DEFAULT_DTMF_CODE_LENGTH`. -/
def DEFAULT_DTMF_CODE_LENGTH : Nat := 2

/-- A JavaScript value as the DTMF code handles it: the digits arrive either
as strings or as numbers (`case '*': case 10:`). -/
inductive JsVal where
  | str (s : String)
  | num (n : Int)
deriving DecidableEq, Repr

/-- `String(v)` as used by `Array.prototype.join`. -/
def JsVal.asString : JsVal → String
  | .str s => s
  | .num n => toString n

/-- JavaScript truthiness of a `JsVal` (`''`, `0` falsy). -/
def JsVal.truthy : JsVal → Bool
  | .str s => jsTruthy s
  | .num n => n ≠ 0

/-- `parseInt(s, 10)`: the number denoted by the longest digit run at the
start of the string, `NaN` (here `none`) when there is none.  Signs and
leading blanks do not occur in joined DTMF codes. -/
def parseIntJs (s : String) : Option Nat :=
  let digits := s.data.takeWhile Char.isDigit
  if digits.isEmpty then none
  else some (digits.foldl (fun acc c => acc * 10 + (c.toNat - Char.toNat '0')) 0)

/-- The DTMF aggregation state: `_dtmfQueue` and whether
`_dtmfTimeoutObject` holds a pending timer. -/
structure DtmfState where
  queue : List JsVal
  timerActive : Bool
deriving DecidableEq, Repr

/-- The adapter calls a flushed DTMF command can make. -/
inductive DtmfAct where
  | toggleSubtitle
  | toggleMediaSubtitle
  | setVideoFloor
  | setLayoutType (layoutId : String)
deriving DecidableEq, Repr

/-- sdp-session.js `_restartDtmfCommand()`: clear the timer, empty the
queue. -/
def restartDtmfCommand (_s : DtmfState) : DtmfState :=
  { queue := [], timerActive := false }

/-- sdp-session.js `_processDtmfCommand(dtmfCodeLength)`: with fewer queued
digits than the code length only restart; otherwise the first digit is the
command and the rest the argument (`*`/`10`: argument `3` toggles the
subtitle, `4` the per-media subtitle, anything else sets the video floor;
`#`/`11`: set the layout; unknown commands are only logged), then restart. -/
def processDtmfCommand (dtmfCodeLength : Nat) (s : DtmfState) :
    DtmfState × List DtmfAct :=
  if s.queue.length < dtmfCodeLength then (restartDtmfCommand s, [])
  else
    match s.queue with
    | [] => (restartDtmfCommand s, [])
    | command :: codes =>
      let acts : List DtmfAct :=
        if command.truthy then
          match command with
          | .str "*" | .num 10 =>
            let floorId := parseIntJs (String.join (codes.map JsVal.asString))
            if floorId = some 3 then [.toggleSubtitle]
            else if floorId = some 4 then [.toggleMediaSubtitle]
            else [.setVideoFloor]
          | .str "#" | .num 11 =>
            [.setLayoutType (String.join (codes.map JsVal.asString))]
          | _ => []
        else []
      (restartDtmfCommand s, acts)

/-- sdp-session.js `_handleDtmfEvent(digit)`: a null digit is ignored; with
a pending timer the digit is pushed and the command flushed once the code
length is reached (otherwise the timer is restarted); with no pending timer
the queue is reset to the digit and the timer started. -/
def handleDtmfEvent (s : DtmfState) (digit : Option JsVal) :
    DtmfState × List DtmfAct :=
  match digit with
  | none => (s, [])
  | some d =>
    if s.timerActive then
      let q := s.queue ++ [d]
      if DEFAULT_DTMF_CODE_LENGTH ≤ q.length then
        processDtmfCommand DEFAULT_DTMF_CODE_LENGTH { s with queue := q }
      else ({ queue := q, timerActive := true }, [])
    else ({ queue := [d], timerActive := true }, [])

/-- The DTMF timer firing (`setTimeout` callback): flush with the default
code length. -/
def dtmfTimerFire (s : DtmfState) : DtmfState × List DtmfAct :=
  processDtmfCommand DEFAULT_DTMF_CODE_LENGTH s

/-- A local descriptor (`SdpWrapper`) as `getAnswer` reads it.
Modelled from the spec: `sdp-wrapper.js` is not under `src/`; per the spec,
`sessionDescriptionHeader` and `removeSessionDescription(body)` split the
session-level prelude from the per-media bodies, so a descriptor is its
header followed by its body. -/
structure SdpDesc where
  header : String
  body : String
deriving DecidableEq, Repr

/-- `wrapper._plainSdp`: the whole descriptor text. -/
def SdpDesc.plainSdp (d : SdpDesc) : String := d.header ++ d.body

/-- A media unit as `getAnswer` reads it: whether `mediaTypes.audio` is
truthy, and its local descriptor (`null` possible). -/
structure SdpMediaUnit where
  audio : Bool
  localDescriptor : Option SdpDesc
deriving DecidableEq, Repr

/-- sdp-session.js `getAnswer()`: the units with truthy `mediaTypes.audio`
are split from the rest; the session header comes from the first non-audio
unit's local descriptor, or from the first unit's when every unit is audio,
and with no units at all the call returns `undefined`; the body is the
first audio unit's body followed by the non-audio bodies in stored order
(a missing non-audio descriptor is skipped).  Reading the header or the
first audio body off a `null` descriptor would throw in the source; that
failure is modelled as `none`. -/
def getAnswer (medias : List SdpMediaUnit) : Option String :=
  let headDescription := medias.filter (fun m => m.audio)
  let remainingDescriptions := medias.filter (fun m => !m.audio)
  let headerQ : Option String :=
    match remainingDescriptions with
    | m :: _ => m.localDescriptor.map SdpDesc.header
    | [] =>
      match medias with
      | m :: _ => m.localDescriptor.map SdpDesc.header
      | [] => none
  match headerQ with
  | none => none
  | some header =>
    let headBodyQ : Option String :=
      match headDescription with
      | m :: _ => m.localDescriptor.map SdpDesc.body
      | [] => some ""
    match headBodyQ with
    | none => none
    | some headBody =>
      let rest := String.join (remainingDescriptions.map (fun m =>
        match m.localDescriptor with
        | some d => d.body
        | none => ""))
      some (header ++ headBody ++ rest)

/-- The answer as the spec describes it: "the audio partial is placed first
in the body, followed by video and content partials in their original offer
order, sharing a single session header taken from the first non-audio unit
or, failing that, the first unit". -/
def getAnswerSpec (medias : List SdpMediaUnit) : Option String :=
  match medias with
  | [] => none
  | m0 :: _ =>
    let audioUnits := medias.filter (fun m => m.audio)
    let nonAudioUnits := medias.filter (fun m => !m.audio)
    let headerUnit := nonAudioUnits.headD m0
    match headerUnit.localDescriptor with
    | none => none
    | some hdr =>
      let audioBodyQ : Option String :=
        match audioUnits with
        | a :: _ => a.localDescriptor.map SdpDesc.body
        | [] => some ""
      match audioBodyQ with
      | none => none
      | some audioBody =>
        match nonAudioUnits.mapM' (fun m => m.localDescriptor.map SdpDesc.body) with
        | none => none
        | some bodies => some (hdr.header ++ audioBody ++ String.join bodies)

/-- The error taxonomy of `C.ERROR` as far as the modelled operations
propagate it. -/
inductive MErr where
  | ROOM_NOT_FOUND
  | USER_NOT_FOUND
  | MEDIA_NOT_FOUND
  | MEDIA_NO_AVAILABLE_CODEC
  | MEDIA_INVALID_TYPE
deriving DecidableEq, Repr

/-- An `SdpWrapper` as the codec checks of `process()` read it. -/
structure SdpWrap where
  plainSdp : String
  hasAvailableVideoCodec : Bool
  hasAvailableAudioCodec : Bool
deriving DecidableEq, Repr

/-- sdp-session.js `_hasAvailableCodec()`: availability parity by kind
between the remote and local descriptors. -/
def hasAvailableCodec (remote loc : SdpWrap) : Bool :=
  (remote.hasAvailableVideoCodec == loc.hasAvailableVideoCodec) &&
    (remote.hasAvailableAudioCodec == loc.hasAvailableAudioCodec)

/-- `this.localDescriptor` after `this.localDescriptor = this.getAnswer()`
in `process()` for a session with no prior local descriptor: the setter
ignores falsy values, otherwise it wraps the answer string (`wrap` stands
for the `SdpWrapper` constructor). -/
def localWrapper (medias : List SdpMediaUnit) (wrap : String → SdpWrap) :
    Option SdpWrap :=
  match getAnswer medias with
  | some a => if jsTruthy a then some (wrap a) else none
  | none => none

/-- The tail of sdp-session.js `process()` on the non-renegotiation path,
after `negotiate` returned `medias`: compute the plain local descriptor
(`null` when the stored wrapper or its `_plainSdp` is falsy); reject
`MEDIA_NO_AVAILABLE_CODEC` when a remote descriptor exists and no media
units came back; reject it again when both descriptors exist and
`_hasAvailableCodec()` fails; otherwise resolve the plain local
descriptor. -/
def processTail (remote : Option SdpWrap) (medias : List SdpMediaUnit)
    (wrap : String → SdpWrap) : Except MErr (Option String) :=
  let localW := localWrapper medias wrap
  let localStr : Option String :=
    match localW with
    | some w => if jsTruthy w.plainSdp then some w.plainSdp else none
    | none => none
  if medias.length ≤ 0 ∧ remote.isSome then .error .MEDIA_NO_AVAILABLE_CODEC
  else
    match remote, localW with
    | some rw, some lw =>
      if jsTruthy lw.plainSdp ∧ ¬hasAvailableCodec rw lw then
        .error .MEDIA_NO_AVAILABLE_CODEC
      else .ok localStr
    | _, _ => .ok localStr

end Sdp

namespace Kur

/-- Lookup in an association list (first binding wins, as a JS object with
the invariant of single keys). -/
def alGet {α β : Type} [DecidableEq α] : List (α × β) → α → Option β
  | [], _ => none
  | (k, v) :: rest, key => if k = key then some v else alGet rest key

/-- Remove every binding of a key. -/
def alDel {α β : Type} [DecidableEq α] (l : List (α × β)) (key : α) :
    List (α × β) :=
  l.filter (fun p => decide (p.1 ≠ key))

/-- Overwrite the binding of a key. -/
def alSet {α β : Type} [DecidableEq α] (l : List (α × β)) (key : α) (v : β) :
    List (α × β) :=
  (key, v) :: alDel l key

/-- Lookup with a default. -/
def alGetD {α β : Type} [DecidableEq α] (l : List (α × β)) (key : α) (d : β) : β :=
  (alGet l key).getD d

/-- The media types of `C.MEDIA_TYPE` that reach the adapter's `stop`. -/
inductive MType where
  | rtp
  | webrtc
  | recording
  | uri
  | mcu
  | hubport
  | composite
deriving DecidableEq, Repr

/-- An entry of the adapter's `_mediaElements` registry: the element id,
the room it was created for and the id of the host it lives on. -/
structure Elem where
  id : String
  room : String
  host : String
deriving DecidableEq, Repr

/-- The adapter state of kurento.js:

* `elems` — `_mediaElements` (every element `_createElement` registered);
* `pipes` — `_mediaPipelines[room][host].activeElements` (a binding exists
  iff the pipeline does);
* `eTrans` — `element.transposers`: `(elemId, sinkHostId) ↦ transposerId`
  (the entries die with their element object);
* `pTrans` — `pipeline.transposers`:
  `((room, host), srcHostId ++ srcElemId) ↦ transposerId`;
* `hostStreams` — the balancer's per-host MAIN stream counters.
  Modelled from the spec: `balancer.js` is not under `src/`; per the spec
  the counters change only by `incrementHostStreams` /
  `decrementHostStreams`, by one;
* `conns` — the backend's directed connect edges `(sourceId, sinkId)`;
* `released` — the element ids whose backend `release()` was called. -/
structure KState where
  elems : List Elem
  pipes : List ((String × String) × Int)
  eTrans : List ((String × String) × String)
  pTrans : List (((String × String) × String) × String)
  hostStreams : List (String × Int)
  conns : List (String × String)
  released : List String
deriving DecidableEq, Repr

/-- The adapter before any request. -/
def kInit : KState :=
  { elems := [], pipes := [], eTrans := [], pTrans := [], hostStreams := []
    conns := [], released := [] }

/-- `balancer.incrementHostStreams(host, MAIN)` (modelled from the spec). -/
def incHost (h : List (String × Int)) (host : String) : List (String × Int) :=
  alSet h host (alGetD h host 0 + 1)

/-- `balancer.decrementHostStreams(host, MAIN)` (modelled from the spec). -/
def decHost (h : List (String × Int)) (host : String) : List (String × Int) :=
  alSet h host (alGetD h host 0 - 1)

/-- kurento.js `createMediaElement(roomId, type, options)`, successful run:
`_getMediaPipeline` creates the `(room, host)` pipeline with
`activeElements = 0` when it does not exist, `_createElement` registers the
new element, and finally `activeElements++`.  The element type only selects
backend-side tuning and is not part of the modelled state. -/
def stepCreate (s : KState) (room host id : String) : KState :=
  let pipes1 :=
    match alGet s.pipes (room, host) with
    | some _ => s.pipes
    | none => alSet s.pipes (room, host) 0
  let elems1 := (⟨id, room, host⟩ : Elem) :: s.elems
  let pipes2 :=
    match alGet pipes1 (room, host) with
    | some n => alSet pipes1 (room, host) (n + 1)
    | none => pipes1
  { s with pipes := pipes2, elems := elems1 }

/-- kurento.js `stop`'s `sinkTransposersToRelease`: the hosts of this
room's live pipelines whose `transposers` hold the key
`hostId + mediaElement.id`, paired with the held transposer id. -/
def sinkTranspToRelease (s : KState) (room srcKey : String) :
    List (String × String) :=
  s.pipes.filterMap (fun p =>
    if p.1.1 = room then
      match alGet s.pTrans (p.1, srcKey) with
      | some t => some (p.1.2, t)
      | none => none
    else none)

/-- kurento.js `stop(room, type, elementId)`: an unknown element only logs;
`type === HUBPORT` diverts to `destroyHubPort` (which unregisters the
element and returns early — hubports are created by the hubport API, not by
`createMediaElement`); otherwise the element is unregistered, its own
transposers are released with one source-host stream decrement each, every
pipeline of the room holding a sink-side transposer for it releases that
transposer (one stream decrement on the pipeline's host, entry deleted),
the element's backend `release` runs, and the pipeline counter is
decremented, releasing the pipeline when it reaches zero or less.
(`RecorderEndpoint` stop and MCU filter teardown only talk to the backend
or touch hubport machinery outside this state.) -/
def stepStop (s : KState) (room : String) (ty : MType) (id : String) : KState :=
  match s.elems.find? (fun e => e.id == id) with
  | none => s
  | some e =>
    if ty = MType.hubport then
      { s with elems := s.elems.filter (fun x => decide (x.id ≠ id)) }
    else
      let k := (room, e.host)
      let elems1 := s.elems.filter (fun x => decide (x.id ≠ id))
      let myTrans := s.eTrans.filter (fun p => p.1.1 == id)
      let rel1 := myTrans.map (fun p => p.2) ++ s.released
      let hs1 := myTrans.foldl (fun h _ => decHost h e.host) s.hostStreams
      let eTrans1 := s.eTrans.filter (fun p => p.1.1 != id)
      let srcKey := e.host ++ id
      let sinks := sinkTranspToRelease s room srcKey
      let rel2 := sinks.map (fun p => p.2) ++ rel1
      let hs2 := sinks.foldl (fun h p => decHost h p.1) hs1
      let pTrans1 := sinks.foldl (fun pt p => alDel pt ((room, p.1), srcKey)) s.pTrans
      let pipes1 :=
        match alGet s.pipes k with
        | some n => if n - 1 ≤ 0 then alDel s.pipes k else alSet s.pipes k (n - 1)
        | none => s.pipes
      { elems := elems1, pipes := pipes1, eTrans := eTrans1, pTrans := pTrans1
        hostStreams := hs2, conns := s.conns, released := id :: rel2 }

/-- kurento.js `connect(sourceId, sinkId, type)`: unknown elements reject;
same-host pairs connect directly; cross-host pairs go through
`_transposeAndConnect`.  On the first transposition for
`(source, sinkHost)` a transposer pair of fresh RTP endpoints `stId` (on
the source's pipeline) and `skId` (on the sink's pipeline) is created and
negotiated, both hosts' stream counters are incremented, and
`source → stId` and `skId → sink` are connected; when the source-side
transposer already exists, only the sink side is connected to the recorded
sink transposer (the in-flight wait on `ELEMENT_TRANSPOSED` is concurrency
bookkeeping with the same final connection).  The connection kind only
selects the backend call variant. -/
def stepConnect (s : KState) (srcId sinkId stId skId : String) : KState :=
  match s.elems.find? (fun e => e.id == srcId),
      s.elems.find? (fun e => e.id == sinkId) with
  | some src, some sink =>
    if src.host = sink.host then
      { s with conns := (srcId, sinkId) :: s.conns }
    else
      match alGet s.eTrans (srcId, sink.host) with
      | none =>
        { s with
          elems := (⟨skId, sink.room, sink.host⟩ : Elem) ::
            (⟨stId, src.room, src.host⟩ : Elem) :: s.elems
          eTrans := ((srcId, sink.host), stId) :: s.eTrans
          pTrans := (((sink.room, sink.host), src.host ++ srcId), skId) :: s.pTrans
          hostStreams := incHost (incHost s.hostStreams src.host) sink.host
          conns := (skId, sinkId) :: (srcId, stId) :: s.conns }
      | some _ =>
        match alGet s.pTrans ((sink.room, sink.host), src.host ++ srcId) with
        | some t => { s with conns := (t, sinkId) :: s.conns }
        | none => s
  | _, _ => s

/-- kurento.js `disconnect(sourceId, sinkId, type)`: unknown elements
reject; for a cross-host pair only the sink pipeline's transposer for
`srcHostId + srcId` is disconnected from the sink; same-host pairs
disconnect directly. -/
def stepDisconnect (s : KState) (srcId sinkId : String) : KState :=
  match s.elems.find? (fun e => e.id == srcId),
      s.elems.find? (fun e => e.id == sinkId) with
  | some src, some sink =>
    if src.host = sink.host then
      { s with conns := s.conns.filter (fun c => decide (c ≠ (srcId, sinkId))) }
    else
      match alGet s.pTrans ((sink.room, sink.host), src.host ++ srcId) with
      | some t =>
        { s with conns := s.conns.filter (fun c => decide (c ≠ (t, sinkId))) }
      | none => s
  | _, _ => s

/-- One adapter request.  `create` carries the balancer-chosen host and the
backend-assigned element id; `connect` carries the backend-assigned ids of
the transposer pair it would create. -/
inductive KEv where
  | create (room host : String) (ty : MType) (id : String)
  | stop (room : String) (ty : MType) (id : String)
  | connect (srcId sinkId stId skId : String)
  | disconnect (srcId sinkId : String)
deriving DecidableEq, Repr

/-- Dispatch one request. -/
def stepK (s : KState) : KEv → KState
  | .create room host _ty id => stepCreate s room host id
  | .stop room ty id => stepStop s room ty id
  | .connect a b st sk => stepConnect s a b st sk
  | .disconnect a b => stepDisconnect s a b

/-- Run a request trace. -/
def runK (s : KState) (t : List KEv) : KState :=
  t.foldl stepK s

/-- The element-lifecycle alphabet of the pipeline-accounting claim:
`createMediaElement` calls with backend-fresh element ids and `stop` calls
that, as in every caller, pass the element's own room and a media type
other than HUBPORT (hubport elements never come from
`createMediaElement`). -/
def okEv (s : KState) : KEv → Bool
  | .create _ _ _ id => (s.elems.find? (fun e => e.id == id)).isNone
  | .stop room ty id =>
    decide (ty ≠ MType.hubport) &&
      (match s.elems.find? (fun e => e.id == id) with
       | some e => e.room == room
       | none => true)
  | _ => false

/-- A trace of element-lifecycle requests, each valid in the state it
meets. -/
def traceOk (s : KState) : List KEv → Bool
  | [] => true
  | e :: t => okEv s e && traceOk (stepK s e) t

/-- The number of live elements on the `(room, host)` pipeline. -/
def liveCount (s : KState) (k : String × String) : Nat :=
  (s.elems.filter (fun e => decide (e.room = k.1 ∧ e.host = k.2))).length

/-- The pipeline-accounting invariant at one key: the pipeline exists
exactly while it has live elements, and its `activeElements` counter equals
their number. -/
def pipeCountAgrees (s : KState) (k : String × String) : Prop :=
  alGet s.pipes k = (if liveCount s k = 0 then none else some (liveCount s k : Int))

end Kur

namespace Ctrl

/-- media-controller.js user types (`C.USERS`). -/
inductive UserType where
  | sfu
  | mcu
  | other
deriving DecidableEq, Repr

/-- A controller-indexed user: id, room and type, as `leave` and `connect`
read it. -/
structure CUser where
  id : String
  roomId : String
  utype : UserType
deriving DecidableEq, Repr

/-- A controller-indexed room (only its id is read by the modelled
operations). -/
structure CRoom where
  id : String
deriving DecidableEq, Repr

/-- A controller-indexed media session (or media unit, for the
`getMediaSession` fallback): its id and its owning user's id. -/
structure CSession where
  id : String
  userId : String
deriving DecidableEq, Repr

/-- The controller's flat indexes: `this.rooms`, `this.users`,
`this.mediaSessions`, `this.medias`. -/
structure CtrlState where
  rooms : List CRoom
  users : List CUser
  mediaSessions : List CSession
  medias : List CSession
deriving DecidableEq, Repr

/-- media-controller.js `getRoom(roomId)`: throws `ROOM_NOT_FOUND` when no
indexed room has the id. -/
def getRoom (st : CtrlState) (roomId : String) : Except Sdp.MErr CRoom :=
  match st.rooms.find? (fun r => r.id == roomId) with
  | some r => .ok r
  | none => .error .ROOM_NOT_FOUND

/-- media-controller.js `getUser(userId)`: throws `USER_NOT_FOUND` when no
indexed user has the id. -/
def getUser (st : CtrlState) (userId : String) : Except Sdp.MErr CUser :=
  match st.users.find? (fun u => u.id == userId) with
  | some u => .ok u
  | none => .error .USER_NOT_FOUND

/-- media-controller.js `getMediaSession(mediaId)`: the `'default'`
sentinel returns the raw string (whose `userId` reads as `undefined`,
modelled as the empty id, which `getUser` then fails on); otherwise the
session index is probed, then the media-unit index, and `MEDIA_NOT_FOUND`
is thrown when neither holds the id. -/
def getMediaSession (st : CtrlState) (mediaId : String) : Except Sdp.MErr CSession :=
  if mediaId = "default" then .ok { id := "default", userId := "" }
  else
    match st.mediaSessions.find? (fun m => m.id == mediaId) with
    | some m => .ok m
    | none =>
      match st.medias.find? (fun m => m.id == mediaId) with
      | some m => .ok m
      | none => .error .MEDIA_NOT_FOUND

/-- media-controller.js `leave(roomId, userId)`: when `getRoom` or
`getUser` throws, the rejection is swallowed and the call resolves with the
controller untouched; otherwise the cleanup body runs (`user.leave()`,
deindexing, MCU-session teardown), abstracted here as the `doLeave`
continuation since the claim only exercises the early return. -/
def leave (doLeave : CtrlState → CRoom → CUser → Except Sdp.MErr CtrlState)
    (st : CtrlState) (roomId userId : String) : Except Sdp.MErr CtrlState :=
  match getRoom st roomId with
  | .error _ => .ok st
  | .ok room =>
    match getUser st userId with
    | .error _ => .ok st
    | .ok user => doLeave st room user

/-- The delegations `connect` can make: `sourceSession.connect(sinkSession,
type)`. -/
inductive CtrlAction where
  | sessionConnect (sourceId sinkId ty : String)
deriving DecidableEq, Repr

/-- media-controller.js `connect(sourceId, sinkId, type)`: both sessions
and both owning users are resolved (rejecting on a failed lookup); when
either user is of type MCU the call resolves at once with no delegation;
otherwise the source session's `connect` is invoked. -/
def connect (st : CtrlState) (sourceId sinkId ty : String) :
    Except Sdp.MErr (List CtrlAction) :=
  match getMediaSession st sourceId with
  | .error e => .error e
  | .ok sourceSession =>
    match getMediaSession st sinkId with
    | .error e => .error e
    | .ok sinkSession =>
      match getUser st sourceSession.userId with
      | .error e => .error e
      | .ok sourceUser =>
        match getUser st sinkSession.userId with
        | .error e => .error e
        | .ok sinkUser =>
          if sourceUser.utype = UserType.mcu ∨ sinkUser.utype = UserType.mcu then
            .ok []
          else .ok [.sessionConnect sourceSession.id sinkSession.id ty]

end Ctrl

/-!
## Claim theorems
-/

/-- C1: evaluation of the room's `MEDIA_DISCONNECTED` handlers at the
failing input.  The room `r1` has conference floor `m1` and no content
floor; the event disconnects `m1` in `r1`.  The claim says handling the
event clears the conference floor, but `clearConferenceFloor` consults
`getContentFloor()` (a copy-paste the spec itself flags), finds no content
floor, performs no release, and the conference floor still references the
disconnected `m1`. -/
theorem C1_conference_floor_survives_disconnect :
    (Room.handleMediaDisconnected
        { id := "r1", contentFloor := none, previousContentFloors := []
          conferenceFloor := some ⟨"m1"⟩, previousConferenceFloors := [] }
        { mediaId := "m1", roomId := "r1", mediaSessionId := none }).conferenceFloor
      = some ⟨"m1"⟩ := by
  decide

/-- C2 counterexample: in a room with no content floor and no history,
`setContentFloor(A); setContentFloor(B); releaseContentFloor()` returns `B`
(also left at the head of the previous-floors list) and clears the current
floor — not `A` as the claim states: the first `setContentFloor` archives
nothing because the history head does not exist yet. -/
theorem C2_mru_restore_counterexample :
    (Room.releaseContentFloor (Room.setContentFloor
        (Room.setContentFloor ⟨"r", none, [], none, []⟩ ⟨⟨"A"⟩⟩) ⟨⟨"B"⟩⟩)).2
        = some ⟨"B"⟩
      ∧ (Room.releaseContentFloor (Room.setContentFloor
          (Room.setContentFloor ⟨"r", none, [], none, []⟩ ⟨⟨"A"⟩⟩) ⟨⟨"B"⟩⟩)).2
          ≠ some ⟨"A"⟩
      ∧ (Room.releaseContentFloor (Room.setContentFloor
          (Room.setContentFloor ⟨"r", none, [], none, []⟩ ⟨⟨"A"⟩⟩)
          ⟨⟨"B"⟩⟩)).1.contentFloor ≠ some ⟨"A"⟩ := by
  decide

/-- C2 (amended): for every room starting with no content floor and no
content-floor history and any two distinct media `A`, `B`, the sequence
`setContentFloor(A); setContentFloor(B); releaseContentFloor()` leaves the
current content floor cleared and `releaseContentFloor` returning `B` — the
floor just released, recorded alone at the head of the previous-floors
list; `A` is forgotten because `setContentFloor` archives the replaced
floor only when the previous-floors list is already non-empty. -/
theorem C2_mru_release_returns_last (r : Room.RoomState)
    (a b : Room.MediaSessionRef)
    (h0 : r.contentFloor = none) (h1 : r.previousContentFloors = [])
    (hab : a.contentMedia.id ≠ b.contentMedia.id) :
    (Room.releaseContentFloor (Room.setContentFloor
        (Room.setContentFloor r a) b)).2 = some b.contentMedia
      ∧ (Room.releaseContentFloor (Room.setContentFloor
          (Room.setContentFloor r a) b)).1.contentFloor = none
      ∧ (Room.releaseContentFloor (Room.setContentFloor
          (Room.setContentFloor r a) b)).1.previousContentFloors
          = [b.contentMedia] := by
  obtain ⟨rid, cf, pcf, conf, pconf⟩ := r
  simp only [Room.RoomState.contentFloor] at h0
  simp only [Room.RoomState.previousContentFloors] at h1
  subst h0; subst h1
  simp [Room.setContentFloor, Room.releaseContentFloor,
    Room.setPreviousContentFloor, Room.MediaSessionRef.getContentMedia]

/-- C2 witness: the amended statement at a concrete room and two concrete
distinct media. -/
theorem C2_mru_release_returns_last_witness :
    (Room.releaseContentFloor (Room.setContentFloor
        (Room.setContentFloor ⟨"w", none, [], none, []⟩ ⟨⟨"wA"⟩⟩)
        ⟨⟨"wB"⟩⟩)).2 = some ⟨"wB"⟩ :=
  (C2_mru_release_returns_last ⟨"w", none, [], none, []⟩ ⟨⟨"wA"⟩⟩ ⟨⟨"wB"⟩⟩
    rfl rfl (by decide)).1

/-- Over units that all carry a local descriptor, collecting the bodies
monadically agrees with the source's skip-missing mapping. -/
theorem sdp_mapM_bodies (l : List Sdp.SdpMediaUnit)
    (h : ∀ m ∈ l, m.localDescriptor.isSome) :
    l.mapM' (fun m => m.localDescriptor.map Sdp.SdpDesc.body)
      = some (l.map (fun m =>
          match m.localDescriptor with
          | some d => d.body
          | none => "")) := by
  induction l with
  | nil => rfl
  | cons a t ih =>
    obtain ⟨d, hd⟩ := Option.isSome_iff_exists.mp (h a (List.mem_cons_self a t))
    have ht := ih (fun m hm => h m (List.mem_cons_of_mem a hm))
    simp [List.mapM', hd, ht]

/-- C5: for a non-empty media-unit list whose units all carry local
descriptors, `getAnswer` assembles exactly the answer the spec describes
(`getAnswerSpec`): the audio unit's body first, then the non-audio bodies
in stored order, under a single session header taken from the first
non-audio unit's local descriptor or, when every unit is an audio unit,
from the first unit's; and that answer exists. -/
theorem C5_get_answer_audio_first (ms : List Sdp.SdpMediaUnit)
    (h0 : ms ≠ []) (h1 : ∀ m ∈ ms, m.localDescriptor.isSome) :
    Sdp.getAnswer ms = Sdp.getAnswerSpec ms ∧ (Sdp.getAnswerSpec ms).isSome := by
  match ms, h0 with
  | m0 :: rest, _ =>
    have hbodies := sdp_mapM_bodies ((m0 :: rest).filter (fun m => !m.audio))
      (fun m hm => h1 m (List.mem_of_mem_filter hm))
    simp only [Sdp.getAnswer, Sdp.getAnswerSpec]
    cases hna : (m0 :: rest).filter (fun m => !m.audio) with
    | nil =>
      obtain ⟨d0, hd0⟩ := Option.isSome_iff_exists.mp
        (h1 m0 (List.mem_cons_self m0 rest))
      rw [hna] at hbodies
      cases haud : (m0 :: rest).filter (fun m => m.audio) with
      | nil => simp [hd0, hbodies]
      | cons a as =>
        have ha : a ∈ m0 :: rest := List.mem_of_mem_filter (by
          rw [haud]; exact List.mem_cons_self a as)
        obtain ⟨da, hda⟩ := Option.isSome_iff_exists.mp (h1 a ha)
        simp [hd0, hda, hbodies]
    | cons m ns =>
      have hm : m ∈ m0 :: rest := List.mem_of_mem_filter (by
        rw [hna]; exact List.mem_cons_self m ns)
      obtain ⟨dm, hdm⟩ := Option.isSome_iff_exists.mp (h1 m hm)
      have hns := sdp_mapM_bodies ns (fun x hx => h1 x (List.mem_of_mem_filter (by
        rw [hna]; exact List.mem_cons_of_mem m hx)))
      cases haud : (m0 :: rest).filter (fun m => m.audio) with
      | nil => simp [hdm, hns]
      | cons a as =>
        have ha : a ∈ m0 :: rest := List.mem_of_mem_filter (by
          rw [haud]; exact List.mem_cons_self a as)
        obtain ⟨da, hda⟩ := Option.isSome_iff_exists.mp (h1 a ha)
        simp [hdm, hda, hns]

/-- C5 witness: the assembled answer at a concrete audio+video session. -/
theorem C5_get_answer_audio_first_witness :
    Sdp.getAnswer [⟨true, some ⟨"ha", "ba"⟩⟩, ⟨false, some ⟨"hv", "bv"⟩⟩]
        = Sdp.getAnswerSpec [⟨true, some ⟨"ha", "ba"⟩⟩, ⟨false, some ⟨"hv", "bv"⟩⟩]
      ∧ (Sdp.getAnswerSpec
          [⟨true, some ⟨"ha", "ba"⟩⟩, ⟨false, some ⟨"hv", "bv"⟩⟩]).isSome :=
  C5_get_answer_audio_first
    [⟨true, some ⟨"ha", "ba"⟩⟩, ⟨false, some ⟨"hv", "bv"⟩⟩]
    (by decide) (by decide)

/-- C6: on the non-renegotiation path, `process()` rejects with
`MEDIA_NO_AVAILABLE_CODEC` exactly when (i) a remote descriptor exists and
negotiation produced zero media units, or (ii) a remote descriptor and a
(truthy) local descriptor both exist and the codec-availability parity
check of `_hasAvailableCodec` fails. -/
theorem C6_no_available_codec_iff (remote : Option Sdp.SdpWrap)
    (medias : List Sdp.SdpMediaUnit) (wrap : String → Sdp.SdpWrap) :
    Sdp.processTail remote medias wrap
        = .error .MEDIA_NO_AVAILABLE_CODEC
      ↔ (remote.isSome ∧ medias = [])
        ∨ (∃ rw lw, remote = some rw
            ∧ Sdp.localWrapper medias wrap = some lw
            ∧ jsTruthy lw.plainSdp = true
            ∧ Sdp.hasAvailableCodec rw lw = false) := by
  cases hr : remote with
  | none => simp [Sdp.processTail]
  | some rw =>
    cases hl : Sdp.localWrapper medias wrap with
    | none =>
      by_cases hm : medias = []
      · subst hm
        simp [Sdp.processTail, hl]
      · simp [Sdp.processTail, hl, hm, List.length_eq_zero]
    | some lw =>
      by_cases hm : medias = []
      · exfalso
        subst hm
        simp [Sdp.localWrapper, Sdp.getAnswer] at hl
      · by_cases hc : jsTruthy lw.plainSdp = true
          ∧ ¬(Sdp.hasAvailableCodec rw lw = true)
        · simp [Sdp.processTail, hl, hm, List.length_eq_zero, hc.1, hc.2]
        · simp only [Sdp.processTail, hl, hm, List.length_eq_zero]
          rw [not_and_or] at hc
          constructor
          · intro habs
            exfalso
            rcases hc with hc | hc <;>
              simp_all [List.length_eq_zero]
          · rintro (⟨-, h⟩ | ⟨rw2, lw2, hrw2, hlw2, ht2, hp2⟩)
            · exact h.elim
            · cases hrw2
              cases Option.some.inj hlw2
              rcases hc with hc | hc
              · exact absurd ht2 hc
              · rw [not_not] at hc
                rw [hc] at hp2
                cases hp2

/-- A step of the SDP session setters preserves the role/descriptor
invariant: with no role assigned, no descriptor is stored. -/
theorem sdp_inv_step (s : Sdp.SessState) (e : Sdp.SessEv)
    (h : s.negotiationRole = none →
      s.remoteDescriptor = none ∧ s.localDescriptor = none) :
    (Sdp.sessStep s e).negotiationRole = none →
      (Sdp.sessStep s e).remoteDescriptor = none
        ∧ (Sdp.sessStep s e).localDescriptor = none := by
  obtain ⟨rd, ld, nr, f1, f2⟩ := s
  cases e with
  | setRemote v =>
    simp only [Sdp.sessStep, Sdp.setRemoteDescriptor]
    split
    · cases nr with
      | none =>
        obtain ⟨h1, h2⟩ := h rfl
        simp_all
      | some r => simp_all
    · exact h
  | setLocal v =>
    simp only [Sdp.sessStep, Sdp.setLocalDescriptor]
    split
    · cases nr with
      | none =>
        obtain ⟨h1, h2⟩ := h rfl
        simp_all
      | some r => simp_all
    · exact h

/-- The role/descriptor invariant holds along any run of setter calls. -/
theorem sdp_inv_run (evs : List Sdp.SessEv) (s : Sdp.SessState)
    (h : s.negotiationRole = none →
      s.remoteDescriptor = none ∧ s.localDescriptor = none) :
    (Sdp.sessRun s evs).negotiationRole = none →
      (Sdp.sessRun s evs).remoteDescriptor = none
        ∧ (Sdp.sessRun s evs).localDescriptor = none := by
  induction evs generalizing s with
  | nil => exact h
  | cons e t ih => exact ih (Sdp.sessStep s e) (sdp_inv_step s e h)

/-- Once assigned, the negotiation role survives any setter call. -/
theorem sdp_role_frozen (s : Sdp.SessState) (e : Sdp.SessEv)
    (h : s.negotiationRole.isSome) :
    (Sdp.sessStep s e).negotiationRole = s.negotiationRole := by
  obtain ⟨rd, ld, nr, f1, f2⟩ := s
  cases nr with
  | none => simp at h
  | some r =>
    cases e with
    | setRemote v =>
      simp only [Sdp.sessStep, Sdp.setRemoteDescriptor]
      split <;> simp
    | setLocal v =>
      simp only [Sdp.sessStep, Sdp.setLocalDescriptor]
      split <;> simp

/-- C3: along every sequence of `remoteDescriptor` / `localDescriptor`
assignments from a fresh SDP session, (i) while the negotiation role is
unset, at most one descriptor is set (in fact none is), (ii) an assigned
role never changes under any further assignment, and (iii) from a role-less
state the next truthy assignment fixes the role: ANSWERER for a remote
descriptor, OFFERER for a local one. -/
theorem C3_negotiation_role_assignment (evs : List Sdp.SessEv) :
    ((Sdp.sessRun Sdp.sessInit evs).negotiationRole = none →
      ¬((Sdp.sessRun Sdp.sessInit evs).remoteDescriptor.isSome
        ∧ (Sdp.sessRun Sdp.sessInit evs).localDescriptor.isSome))
    ∧ (∀ e : Sdp.SessEv, (Sdp.sessRun Sdp.sessInit evs).negotiationRole.isSome →
        (Sdp.sessStep (Sdp.sessRun Sdp.sessInit evs) e).negotiationRole
          = (Sdp.sessRun Sdp.sessInit evs).negotiationRole)
    ∧ ((Sdp.sessRun Sdp.sessInit evs).negotiationRole = none →
        ∀ v : String, jsTruthy v = true →
          (Sdp.setRemoteDescriptor (Sdp.sessRun Sdp.sessInit evs)
              v).negotiationRole = some .answerer
          ∧ (Sdp.setLocalDescriptor (Sdp.sessRun Sdp.sessInit evs)
              v).negotiationRole = some .offerer) := by
  have hinv := sdp_inv_run evs Sdp.sessInit (by intro; exact ⟨rfl, rfl⟩)
  refine ⟨fun hr hboth => ?_, fun e h => sdp_role_frozen _ e h, fun hr v hv => ?_⟩
  · obtain ⟨h1, h2⟩ := hinv hr
    rw [h1, h2] at hboth
    simp at hboth
  · obtain ⟨h1, h2⟩ := hinv hr
    constructor
    · simp [Sdp.setRemoteDescriptor, hv, h2, hr]
    · simp [Sdp.setLocalDescriptor, hv, h1, hr]

/-- Deleting a key removes its binding. -/
theorem alGet_alDel_self {α β : Type} [DecidableEq α] (l : List (α × β)) (k : α) :
    Kur.alGet (Kur.alDel l k) k = none := by
  induction l with
  | nil => rfl
  | cons p t ih =>
    simp only [Kur.alDel, ne_eq, decide_not, List.filter_cons] at ih ⊢
    by_cases hp : p.1 = k
    · simp [hp, ih]
    · simp [Kur.alGet, hp, ih]

/-- Deleting one key leaves the other keys' bindings. -/
theorem alGet_alDel_ne {α β : Type} [DecidableEq α] (l : List (α × β)) (k k' : α)
    (h : k' ≠ k) : Kur.alGet (Kur.alDel l k) k' = Kur.alGet l k' := by
  induction l with
  | nil => rfl
  | cons p t ih =>
    simp only [Kur.alDel, ne_eq, decide_not, List.filter_cons] at ih ⊢
    by_cases hp : p.1 = k
    · have hne : ¬p.1 = k' := by rw [hp]; exact fun hk => h hk.symm
      have hkk : ¬k = k' := fun hk => h hk.symm
      simp [Kur.alGet, hp, hne, hkk, ih]
    · by_cases hp' : p.1 = k'
      · simp [Kur.alGet, hp, hp', h]
      · simp [Kur.alGet, hp, hp', ih]

/-- Setting a key binds it. -/
theorem alGet_alSet_self {α β : Type} [DecidableEq α] (l : List (α × β)) (k : α)
    (v : β) : Kur.alGet (Kur.alSet l k v) k = some v := by
  simp [Kur.alSet, Kur.alGet]

/-- Setting one key leaves the other keys' bindings. -/
theorem alGet_alSet_ne {α β : Type} [DecidableEq α] (l : List (α × β)) (k k' : α)
    (v : β) (h : k' ≠ k) : Kur.alGet (Kur.alSet l k v) k' = Kur.alGet l k' := by
  have h' : k ≠ k' := fun hk => h hk.symm
  simp only [Kur.alSet, Kur.alGet, h', if_false]
  exact alGet_alDel_ne l k k' h

/-- Removing the one element with a given id lowers each pipeline's element
count by that element's contribution. -/
theorem kur_count_remove (l : List Kur.Elem) (id : String)
    (hn : (l.map (fun e => e.id)).Nodup)
    (el : Kur.Elem) (hf : l.find? (fun e => e.id == id) = some el)
    (k : String × String) :
    ((l.filter (fun x => decide (x.id ≠ id))).filter
        (fun e => decide (e.room = k.1 ∧ e.host = k.2))).length
      + (if el.room = k.1 ∧ el.host = k.2 then 1 else 0)
      = (l.filter (fun e => decide (e.room = k.1 ∧ e.host = k.2))).length := by
  induction l with
  | nil => cases hf
  | cons x t ih =>
    simp only [List.map_cons, List.nodup_cons] at hn
    by_cases hx : x.id = id
    · rw [List.find?_cons_of_pos _ (by simpa using hx)] at hf
      have hel : x = el := by injection hf
      subst hel
      have hkeep : t.filter (fun y => decide (y.id ≠ id)) = t :=
        List.filter_eq_self.mpr (fun y hy => by
          have hne : y.id ≠ id := by
            intro hid
            apply hn.1
            rw [hx, ← hid]
            exact List.mem_map_of_mem (fun e => e.id) hy
          simpa using hne)
      simp only [List.filter_cons, hx, hkeep]
      by_cases hk : x.room = k.1 ∧ x.host = k.2
      · simp [hk]
      · simp [hk]
    · rw [List.find?_cons_of_neg _ (by simpa using hx)] at hf
      have iht := ih hn.2 hf
      by_cases hk : x.room = k.1 ∧ x.host = k.2
      · simp [List.filter_cons, hx, hk] at iht ⊢
        omega
      · simp [List.filter_cons, hx, hk] at iht ⊢
        omega

/-- One valid element-lifecycle request preserves distinctness of element
ids and the pipeline-accounting invariant. -/
theorem kur_inv_step (s : Kur.KState) (e : Kur.KEv)
    (hn : (s.elems.map (fun x => x.id)).Nodup)
    (hp : ∀ k, Kur.pipeCountAgrees s k)
    (hok : Kur.okEv s e = true) :
    ((Kur.stepK s e).elems.map (fun x => x.id)).Nodup
      ∧ ∀ k, Kur.pipeCountAgrees (Kur.stepK s e) k := by
  cases e with
  | connect a b st sk => simp [Kur.okEv] at hok
  | disconnect a b => simp [Kur.okEv] at hok
  | create room host ty id =>
    have hid : ∀ x ∈ s.elems, x.id ≠ id := by
      simp only [Kur.okEv, Option.isNone_iff_eq_none, List.find?_eq_none] at hok
      intro x hx
      simpa using hok x hx
    have hnotmem : id ∉ s.elems.map (fun x => x.id) := by
      intro hmem
      obtain ⟨x, hx, hxid⟩ := List.mem_map.mp hmem
      exact hid x hx hxid
    have helems : (Kur.stepK s (.create room host ty id)).elems
        = (⟨id, room, host⟩ : Kur.Elem) :: s.elems := by
      cases hga : Kur.alGet s.pipes (room, host) <;>
        simp [Kur.stepK, Kur.stepCreate, hga]
    have hlc : ∀ k, Kur.liveCount (Kur.stepK s (.create room host ty id)) k
        = (if room = k.1 ∧ host = k.2 then 1 else 0) + Kur.liveCount s k := by
      intro k
      rw [Kur.liveCount, helems, List.filter_cons]
      by_cases hk : room = k.1 ∧ host = k.2
      · simp [hk, Kur.liveCount]
        omega
      · simp [hk, Kur.liveCount]
    constructor
    · rw [helems]
      simp only [List.map_cons, List.nodup_cons]
      exact ⟨hnotmem, hn⟩
    intro k
    cases hga : Kur.alGet s.pipes (room, host) with
    | some n =>
      have hpipes : (Kur.stepK s (.create room host ty id)).pipes
          = Kur.alSet s.pipes (room, host) (n + 1) := by
        simp [Kur.stepK, Kur.stepCreate, hga]
      have hpk := hp (room, host)
      rw [Kur.pipeCountAgrees, hga] at hpk
      by_cases h0 : Kur.liveCount s (room, host) = 0
      · rw [if_pos h0] at hpk; cases hpk
      · rw [if_neg h0] at hpk
        have hn2 : n = (Kur.liveCount s (room, host) : Int) := Option.some.inj hpk
        by_cases hkk : k = (room, host)
        · subst hkk
          have hlck := hlc (room, host)
          simp only [and_self, if_pos] at hlck
          rw [Kur.pipeCountAgrees, hpipes, alGet_alSet_self, hlck]
          rw [if_neg (by omega), hn2]
          congr 1
          push_cast
          omega
        · have hind : ¬(room = k.1 ∧ host = k.2) := fun hkh => by
            apply hkk
            cases k
            simp only at hkh
            rw [← hkh.1, ← hkh.2]
          have hlck := hlc k
          rw [if_neg hind, Nat.zero_add] at hlck
          rw [Kur.pipeCountAgrees, hpipes, alGet_alSet_ne _ _ _ _ hkk, hlck]
          exact hp k
    | none =>
      have hpipes : (Kur.stepK s (.create room host ty id)).pipes
          = Kur.alSet (Kur.alSet s.pipes (room, host) 0) (room, host) (0 + 1) := by
        simp [Kur.stepK, Kur.stepCreate, hga, alGet_alSet_self]
      have hpk := hp (room, host)
      rw [Kur.pipeCountAgrees, hga] at hpk
      have h0 : Kur.liveCount s (room, host) = 0 := by
        by_contra h0
        rw [if_neg h0] at hpk
        cases hpk
      by_cases hkk : k = (room, host)
      · subst hkk
        have hlck := hlc (room, host)
        simp only [and_self, if_pos] at hlck
        rw [Kur.pipeCountAgrees, hpipes, alGet_alSet_self, hlck, h0]
        norm_num
      · have hind : ¬(room = k.1 ∧ host = k.2) := fun hkh => by
          apply hkk
          cases k
          simp only at hkh
          rw [← hkh.1, ← hkh.2]
        have hlck := hlc k
        rw [if_neg hind, Nat.zero_add] at hlck
        rw [Kur.pipeCountAgrees, hpipes, alGet_alSet_ne _ _ _ _ hkk,
          alGet_alSet_ne _ _ _ _ hkk, hlck]
        exact hp k
  | stop room ty id =>
    simp only [Kur.okEv, Bool.and_eq_true] at hok
    have hty : ¬ty = Kur.MType.hubport := by simpa using hok.1
    cases hfind : s.elems.find? (fun e => e.id == id) with
    | none =>
      have hsame : Kur.stepK s (.stop room ty id) = s := by
        simp [Kur.stepK, Kur.stepStop, hfind]
      rw [hsame]
      exact ⟨hn, hp⟩
    | some el =>
      have hroom : el.room = room := by
        have h2 := hok.2
        rw [hfind] at h2
        simpa using h2
      have helmem : el ∈ s.elems := List.mem_of_find?_eq_some hfind
      have hlcpos : 0 < Kur.liveCount s (room, el.host) := by
        rw [Kur.liveCount]
        refine List.length_pos.mpr (List.ne_nil_of_mem (List.mem_filter.mpr
          ⟨helmem, ?_⟩))
        simp [hroom]
      have hsome : Kur.alGet s.pipes (room, el.host)
          = some ((Kur.liveCount s (room, el.host) : Int)) := by
        have hpk := hp (room, el.host)
        rw [Kur.pipeCountAgrees] at hpk
        rw [hpk, if_neg (by omega)]
      have helems : (Kur.stepK s (.stop room ty id)).elems
          = s.elems.filter (fun x => decide (x.id ≠ id)) := by
        simp [Kur.stepK, Kur.stepStop, hfind, hty, hsome]
      have hpipes : (Kur.stepK s (.stop room ty id)).pipes
          = if (Kur.liveCount s (room, el.host) : Int) - 1 ≤ 0 then
              Kur.alDel s.pipes (room, el.host)
            else Kur.alSet s.pipes (room, el.host)
              ((Kur.liveCount s (room, el.host) : Int) - 1) := by
        simp [Kur.stepK, Kur.stepStop, hfind, hty, hsome]
      constructor
      · rw [helems]
        exact ((List.filter_sublist s.elems).map (fun x => x.id)).nodup hn
      intro k
      have hlck : Kur.liveCount (Kur.stepK s (.stop room ty id)) k
          + (if el.room = k.1 ∧ el.host = k.2 then 1 else 0)
          = Kur.liveCount s k := by
        rw [Kur.liveCount, helems]
        exact kur_count_remove s.elems id hn el hfind k
      by_cases hkk : k = (room, el.host)
      · subst hkk
        rw [if_pos ⟨hroom, rfl⟩] at hlck
        rw [Kur.pipeCountAgrees, hpipes]
        by_cases h1 : (Kur.liveCount s (room, el.host) : Int) - 1 ≤ 0
        · rw [if_pos h1, alGet_alDel_self]
          have hz : Kur.liveCount (Kur.stepK s (.stop room ty id))
              (room, el.host) = 0 := by omega
          rw [hz]
          rfl
        · rw [if_neg h1, alGet_alSet_self,
            if_neg (by omega : ¬Kur.liveCount (Kur.stepK s (.stop room ty id))
              (room, el.host) = 0)]
          congr 1
          omega
      · have hind : ¬(el.room = k.1 ∧ el.host = k.2) := fun hkh => by
          apply hkk
          cases k
          simp only at hkh
          rw [← hkh.1, ← hkh.2, hroom]
        rw [if_neg hind, Nat.add_zero] at hlck
        rw [Kur.pipeCountAgrees, hpipes]
        by_cases h1 : (Kur.liveCount s (room, el.host) : Int) - 1 ≤ 0
        · rw [if_pos h1, alGet_alDel_ne _ _ _ hkk, hlck]
          exact hp k
        · rw [if_neg h1, alGet_alSet_ne _ _ _ _ hkk, hlck]
          exact hp k

/-- The pipeline-accounting invariant holds along any valid
element-lifecycle trace. -/
theorem kur_inv_run (t : List Kur.KEv) (s : Kur.KState)
    (hn : (s.elems.map (fun x => x.id)).Nodup)
    (hp : ∀ k, Kur.pipeCountAgrees s k)
    (hok : Kur.traceOk s t = true) :
    ((Kur.runK s t).elems.map (fun x => x.id)).Nodup
      ∧ ∀ k, Kur.pipeCountAgrees (Kur.runK s t) k := by
  induction t generalizing s with
  | nil => exact ⟨hn, hp⟩
  | cons e rest ih =>
    rw [Kur.traceOk, Bool.and_eq_true] at hok
    obtain ⟨hn1, hp1⟩ := kur_inv_step s e hn hp hok.1
    exact ih (Kur.stepK s e) hn1 hp1 hok.2

/-- C4: along every valid trace of successful `createMediaElement` calls
(fresh backend ids, non-hubport types) and `stop` calls on the Kurento
adapter, every `(roomId, hostId)` pipeline exists exactly while it has live
elements and its `activeElements` counter equals their number; in
particular each create increments the counter by one, each stop of a live
element decrements it by one, and the pipeline is released exactly when the
counter reaches zero. -/
theorem C4_active_elements_accounting (t : List Kur.KEv) (k : String × String)
    (h : Kur.traceOk Kur.kInit t = true) :
    Kur.pipeCountAgrees (Kur.runK Kur.kInit t) k :=
  (kur_inv_run t Kur.kInit (by simp [Kur.kInit])
    (fun _ => by simp [Kur.pipeCountAgrees, Kur.kInit, Kur.alGet,
      Kur.liveCount]) h).2 k

/-- C4 witness: a concrete trace — two elements created on the same
pipeline, one stopped — whose pipeline counter is one, matching its one
live element. -/
theorem C4_active_elements_accounting_witness :
    Kur.pipeCountAgrees
      (Kur.runK Kur.kInit
        [.create "r" "h" .webrtc "e1", .create "r" "h" .rtp "e2",
          .stop "r" .rtp "e2"])
      ("r", "h") :=
  C4_active_elements_accounting
    [.create "r" "h" .webrtc "e1", .create "r" "h" .rtp "e2",
      .stop "r" .rtp "e2"]
    ("r", "h") (by decide)

/-- A key bound by no entry looks up to nothing. -/
theorem alGet_none_of_all {α β : Type} [DecidableEq α] (l : List (α × β)) (k : α)
    (h : ∀ p ∈ l, p.1 ≠ k) : Kur.alGet l k = none := by
  induction l with
  | nil => rfl
  | cons p t ih =>
    rw [Kur.alGet, if_neg (h p (List.mem_cons_self p t))]
    exact ih (fun q hq => h q (List.mem_cons_of_mem p hq))

/-- With distinct pipeline keys, one live pipeline of the room holding the
sink transposer, and no other pipeline of the room holding one, the
sink-transposer sweep of `stop` finds exactly that one transposer. -/
theorem kur_sink_sweep_single (pipes : List ((String × String) × Int))
    (pT : List (((String × String) × String) × String))
    (room host srcKey tid : String)
    (hnd : (pipes.map Prod.fst).Nodup)
    (hmem : Kur.alGet pipes (room, host) ≠ none)
    (hhit : Kur.alGet pT ((room, host), srcKey) = some tid)
    (hmiss : ∀ h', h' ≠ host → Kur.alGet pT ((room, h'), srcKey) = none) :
    pipes.filterMap (fun p =>
      if p.1.1 = room then
        match Kur.alGet pT (p.1, srcKey) with
        | some t => some (p.1.2, t)
        | none => none
      else none) = [(host, tid)] := by
  induction pipes with
  | nil => exact absurd rfl hmem
  | cons p t ih =>
    simp only [List.map_cons, List.nodup_cons] at hnd
    by_cases hpk : p.1 = (room, host)
    · have hfirst :
          (if p.1.1 = room then
            match Kur.alGet pT (p.1, srcKey) with
            | some t => some (p.1.2, t)
            | none => none
          else none) = some (host, tid) := by
        rw [hpk]
        simp [hhit]
      have hrest : t.filterMap (fun q =>
          if q.1.1 = room then
            match Kur.alGet pT (q.1, srcKey) with
            | some tr => some (q.1.2, tr)
            | none => none
          else none) = [] := by
        rw [List.filterMap_eq_nil_iff]
        intro q hq
        by_cases hq1 : q.1.1 = room
        · have hq2 : q.1.2 ≠ host := by
            intro hq2
            apply hnd.1
            rw [hpk, ← hq1, ← hq2]
            exact List.mem_map_of_mem Prod.fst hq
          have : Kur.alGet pT ((room, q.1.2), srcKey) = none :=
            hmiss q.1.2 hq2
          have hq1' : q.1 = (room, q.1.2) := by
            rw [← hq1]
          rw [if_pos hq1, hq1', this]
        · rw [if_neg hq1]
      rw [List.filterMap_cons, hfirst, hrest]
    · have hfirst :
          (if p.1.1 = room then
            match Kur.alGet pT (p.1, srcKey) with
            | some t => some (p.1.2, t)
            | none => none
          else none) = none := by
        by_cases hp1 : p.1.1 = room
        · have hp2 : p.1.2 ≠ host := by
            intro hp2
            exact hpk (by rw [← hp1, ← hp2])
          have hp1' : p.1 = (room, p.1.2) := by rw [← hp1]
          rw [if_pos hp1, hp1', hmiss p.1.2 hp2]
        · rw [if_neg hp1]
      have hmem' : Kur.alGet t (room, host) ≠ none := by
        rw [Kur.alGet, if_neg hpk] at hmem
        exact hmem
      rw [List.filterMap_cons, hfirst]
      exact ih hnd.2 hmem'

/-- C8: for two media elements on different hosts of the same room with no
transposition yet, `connect` creates the transposer pair `stId` (source
side) and `skId` (sink side) and links `source → stId` and `skId → sink`;
`disconnect(source, sink)` then removes only the `skId → sink` link — the
`source → stId` link, the source element's transposer entry and the sink
pipeline's transposer entry all survive, and no stream counter changes —
and only `stop(source)` releases both transposers, deletes the sink
pipeline's entry and decrements each host's stream counter by one. -/
theorem C8_disconnect_keeps_transposers (s0 s1 s2 s3 : Kur.KState)
    (src sink : Kur.Elem) (srcId sinkId stId skId : String) (ty : Kur.MType)
    (h1 : s0.elems.find? (fun e => e.id == srcId) = some src)
    (h2 : s0.elems.find? (fun e => e.id == sinkId) = some sink)
    (hhost : src.host ≠ sink.host)
    (hroom : sink.room = src.room)
    (hf1 : stId ≠ srcId) (hf2 : skId ≠ srcId)
    (hf3 : stId ≠ sinkId) (hf4 : skId ≠ sinkId)
    (het : ∀ p ∈ s0.eTrans, p.1.1 ≠ srcId)
    (hpt : ∀ p ∈ s0.pTrans, p.1.2 ≠ src.host ++ srcId)
    (hpipe : Kur.alGet s0.pipes (src.room, sink.host) ≠ none)
    (hnd : (s0.pipes.map Prod.fst).Nodup)
    (hty : ty ≠ Kur.MType.hubport)
    (hs1 : s1 = Kur.stepK s0 (.connect srcId sinkId stId skId))
    (hs2 : s2 = Kur.stepK s1 (.disconnect srcId sinkId))
    (hs3 : s3 = Kur.stepK s2 (.stop src.room ty srcId)) :
    ((srcId, stId) ∈ s1.conns ∧ (skId, sinkId) ∈ s1.conns
      ∧ Kur.alGet s1.eTrans (srcId, sink.host) = some stId
      ∧ Kur.alGet s1.pTrans ((sink.room, sink.host), src.host ++ srcId)
          = some skId)
    ∧ (s2.conns = s1.conns.filter (fun c => decide (c ≠ (skId, sinkId)))
      ∧ (srcId, stId) ∈ s2.conns
      ∧ s2.eTrans = s1.eTrans ∧ s2.pTrans = s1.pTrans
      ∧ s2.hostStreams = s1.hostStreams ∧ s2.elems = s1.elems
      ∧ s2.released = s1.released)
    ∧ (stId ∈ s3.released ∧ skId ∈ s3.released
      ∧ Kur.alGet s3.pTrans ((sink.room, sink.host), src.host ++ srcId) = none
      ∧ Kur.alGetD s3.hostStreams src.host 0
          = Kur.alGetD s2.hostStreams src.host 0 - 1
      ∧ Kur.alGetD s3.hostStreams sink.host 0
          = Kur.alGetD s2.hostStreams sink.host 0 - 1) := by
  have hetn : Kur.alGet s0.eTrans (srcId, sink.host) = none :=
    alGet_none_of_all _ _ (fun p hp hk => het p hp (congrArg Prod.fst hk))
  have e1 : Kur.stepK s0 (.connect srcId sinkId stId skId)
      = { s0 with
          elems := (⟨skId, sink.room, sink.host⟩ : Kur.Elem) ::
            (⟨stId, src.room, src.host⟩ : Kur.Elem) :: s0.elems
          eTrans := ((srcId, sink.host), stId) :: s0.eTrans
          pTrans := (((sink.room, sink.host), src.host ++ srcId), skId) ::
            s0.pTrans
          hostStreams := Kur.incHost (Kur.incHost s0.hostStreams src.host)
            sink.host
          conns := (skId, sinkId) :: (srcId, stId) :: s0.conns } := by
    simp [Kur.stepK, Kur.stepConnect, h1, h2, hhost, hetn]
  have hs1e : s1 = { s0 with
      elems := (⟨skId, sink.room, sink.host⟩ : Kur.Elem) ::
        (⟨stId, src.room, src.host⟩ : Kur.Elem) :: s0.elems
      eTrans := ((srcId, sink.host), stId) :: s0.eTrans
      pTrans := (((sink.room, sink.host), src.host ++ srcId), skId) ::
        s0.pTrans
      hostStreams := Kur.incHost (Kur.incHost s0.hostStreams src.host)
        sink.host
      conns := (skId, sinkId) :: (srcId, stId) :: s0.conns } := by
    rw [hs1, e1]
  have hfind0 : ((⟨skId, sink.room, sink.host⟩ : Kur.Elem) ::
      (⟨stId, src.room, src.host⟩ : Kur.Elem) :: s0.elems).find?
        (fun e => e.id == srcId) = some src := by
    rw [List.find?_cons_of_neg _ (by simp [hf2]),
      List.find?_cons_of_neg _ (by simp [hf1])]
    exact h1
  have hfind0' : ((⟨skId, sink.room, sink.host⟩ : Kur.Elem) ::
      (⟨stId, src.room, src.host⟩ : Kur.Elem) :: s0.elems).find?
        (fun e => e.id == sinkId) = some sink := by
    rw [List.find?_cons_of_neg _ (by simp [hf4]),
      List.find?_cons_of_neg _ (by simp [hf3])]
    exact h2
  have hfindsrc : s1.elems.find? (fun e => e.id == srcId) = some src := by
    rw [hs1e]
    exact hfind0
  have hfindsink : s1.elems.find? (fun e => e.id == sinkId) = some sink := by
    rw [hs1e]
    exact hfind0'
  have hptget : Kur.alGet s1.pTrans ((sink.room, sink.host), src.host ++ srcId)
      = some skId := by
    rw [hs1e]
    simp [Kur.alGet]
  have e2 : Kur.stepK s1 (.disconnect srcId sinkId)
      = { s1 with conns :=
          s1.conns.filter (fun c => decide (c ≠ (skId, sinkId))) } := by
    simp [Kur.stepK, Kur.stepDisconnect, hfindsrc, hfindsink, hhost, hptget]
  have hs2e : s2
      = { s1 with
          conns := s1.conns.filter (fun c => decide (c ≠ (skId, sinkId))) } := by
    rw [hs2, e2]
  have hs2et : s2.eTrans = ((srcId, sink.host), stId) :: s0.eTrans := by
    rw [hs2e, hs1e]
  have hs2pt : s2.pTrans
      = (((sink.room, sink.host), src.host ++ srcId), skId) :: s0.pTrans := by
    rw [hs2e, hs1e]
  have hs2pipes : s2.pipes = s0.pipes := by
    rw [hs2e, hs1e]
  have hs2elems : s2.elems = (⟨skId, sink.room, sink.host⟩ : Kur.Elem) ::
      (⟨stId, src.room, src.host⟩ : Kur.Elem) :: s0.elems := by
    rw [hs2e, hs1e]
  have hs2rel : s2.released = s0.released := by
    rw [hs2e, hs1e]
  refine ⟨⟨?_, ?_, ?_, hptget⟩,
    ⟨by rw [hs2e], ?_, by rw [hs2e], by rw [hs2e], by rw [hs2e],
      by rw [hs2e], by rw [hs2e]⟩, ?_⟩
  · rw [hs1e]
    simp
  · rw [hs1e]
    simp
  · rw [hs1e]
    simp [Kur.alGet]
  · rw [hs2e]
    refine List.mem_filter.mpr ⟨by rw [hs1e]; simp, ?_⟩
    simp only [decide_eq_true_eq, ne_eq]
    intro hq
    exact hf2 (congrArg Prod.fst hq).symm
  -- the stop stage
  have hfs2 : s2.elems.find? (fun e => e.id == srcId) = some src := by
    rw [hs2elems]
    exact hfind0
  have hmy : s2.eTrans.filter (fun p => p.1.1 == srcId)
      = [((srcId, sink.host), stId)] := by
    rw [hs2et, List.filter_cons]
    rw [List.filter_eq_nil_iff.mpr (fun p hp => by simpa using het p hp)]
    simp
  have hhit : Kur.alGet s2.pTrans ((src.room, sink.host), src.host ++ srcId)
      = some skId := by
    rw [hs2pt, ← hroom]
    simp [Kur.alGet]
  have hmiss : ∀ h', h' ≠ sink.host →
      Kur.alGet s2.pTrans ((src.room, h'), src.host ++ srcId) = none := by
    intro h' hne
    rw [hs2pt, Kur.alGet, if_neg (by
      intro hk
      apply hne
      have h2nd := congrArg (fun q => q.1.2) hk
      simpa using h2nd.symm)]
    exact alGet_none_of_all _ _ (fun p hp hk => hpt p hp
      (congrArg Prod.snd hk))
  have hsinks : Kur.sinkTranspToRelease s2 src.room (src.host ++ srcId)
      = [(sink.host, skId)] := by
    rw [Kur.sinkTranspToRelease, hs2pipes]
    exact kur_sink_sweep_single s0.pipes s2.pTrans src.room sink.host
      (src.host ++ srcId) skId hnd hpipe hhit hmiss
  have e3rel : s3.released = srcId :: skId :: stId :: s0.released := by
    rw [hs3]
    simp [Kur.stepK, Kur.stepStop, hfs2, hty, hmy, hsinks, hs2rel]
  have e3pt : s3.pTrans
      = Kur.alDel s2.pTrans ((src.room, sink.host), src.host ++ srcId) := by
    rw [hs3]
    simp [Kur.stepK, Kur.stepStop, hfs2, hty, hmy, hsinks]
  have e3hs : s3.hostStreams
      = Kur.decHost (Kur.decHost s2.hostStreams src.host) sink.host := by
    rw [hs3]
    simp [Kur.stepK, Kur.stepStop, hfs2, hty, hmy, hsinks]
  refine ⟨by rw [e3rel]; simp, by rw [e3rel]; simp, ?_, ?_, ?_⟩
  · rw [e3pt, hroom]
    exact alGet_alDel_self _ _
  · rw [e3hs, Kur.decHost, Kur.decHost, Kur.alGetD,
      alGet_alSet_ne _ _ _ _ hhost, alGet_alSet_self]
    rfl
  · rw [e3hs, Kur.decHost, Kur.decHost, Kur.alGetD, alGet_alSet_self,
      Kur.alGetD, Kur.alGetD, alGet_alSet_ne _ _ _ _ (Ne.symm hhost)]
    rfl

/-- C8 witness: at a concrete two-host room, the `source → transposer`
link survives the disconnect, and the stop releases the source-side
transposer. -/
theorem C8_disconnect_keeps_transposers_witness :
    ("esrc", "est") ∈ (Kur.stepK (Kur.stepK
        { elems := [⟨"esrc", "r", "h1"⟩, ⟨"esink", "r", "h2"⟩]
          pipes := [(("r", "h1"), 1), (("r", "h2"), 1)]
          eTrans := [], pTrans := []
          hostStreams := [("h1", 5), ("h2", 7)], conns := [], released := [] }
        (.connect "esrc" "esink" "est" "esk"))
      (.disconnect "esrc" "esink")).conns
    ∧ "est" ∈ (Kur.stepK (Kur.stepK (Kur.stepK
        { elems := [⟨"esrc", "r", "h1"⟩, ⟨"esink", "r", "h2"⟩]
          pipes := [(("r", "h1"), 1), (("r", "h2"), 1)]
          eTrans := [], pTrans := []
          hostStreams := [("h1", 5), ("h2", 7)], conns := [], released := [] }
        (.connect "esrc" "esink" "est" "esk"))
      (.disconnect "esrc" "esink")) (.stop "r" .rtp "esrc")).released := by
  have h := C8_disconnect_keeps_transposers
    { elems := [⟨"esrc", "r", "h1"⟩, ⟨"esink", "r", "h2"⟩]
      pipes := [(("r", "h1"), 1), (("r", "h2"), 1)]
      eTrans := [], pTrans := []
      hostStreams := [("h1", 5), ("h2", 7)], conns := [], released := [] }
    (Kur.stepK
      { elems := [⟨"esrc", "r", "h1"⟩, ⟨"esink", "r", "h2"⟩]
        pipes := [(("r", "h1"), 1), (("r", "h2"), 1)]
        eTrans := [], pTrans := []
        hostStreams := [("h1", 5), ("h2", 7)], conns := [], released := [] }
      (.connect "esrc" "esink" "est" "esk"))
    (Kur.stepK (Kur.stepK
      { elems := [⟨"esrc", "r", "h1"⟩, ⟨"esink", "r", "h2"⟩]
        pipes := [(("r", "h1"), 1), (("r", "h2"), 1)]
        eTrans := [], pTrans := []
        hostStreams := [("h1", 5), ("h2", 7)], conns := [], released := [] }
      (.connect "esrc" "esink" "est" "esk"))
      (.disconnect "esrc" "esink"))
    (Kur.stepK (Kur.stepK (Kur.stepK
      { elems := [⟨"esrc", "r", "h1"⟩, ⟨"esink", "r", "h2"⟩]
        pipes := [(("r", "h1"), 1), (("r", "h2"), 1)]
        eTrans := [], pTrans := []
        hostStreams := [("h1", 5), ("h2", 7)], conns := [], released := [] }
      (.connect "esrc" "esink" "est" "esk"))
      (.disconnect "esrc" "esink")) (.stop "r" .rtp "esrc"))
    ⟨"esrc", "r", "h1"⟩ ⟨"esink", "r", "h2"⟩
    "esrc" "esink" "est" "esk" .rtp
    rfl rfl (by decide) rfl (by decide) (by decide) (by decide) (by decide)
    (by simp) (by simp) (by decide) (by decide) (by decide) rfl rfl rfl
  exact ⟨h.2.1.2.1, h.2.2.1⟩

/-- C9: `leave(roomId, userId)` for a roomId no indexed room carries, or a
userId no indexed user carries, resolves successfully with the controller's
room, user, media-session and media indexes unchanged (the resolved state
is the input state itself), whatever the cleanup body would do. -/
theorem C9_leave_unknown_resolves (doLeave : Ctrl.CtrlState → Ctrl.CRoom →
      Ctrl.CUser → Except Sdp.MErr Ctrl.CtrlState)
    (st : Ctrl.CtrlState) (roomId userId : String)
    (h : st.rooms.find? (fun r => r.id == roomId) = none
      ∨ st.users.find? (fun u => u.id == userId) = none) :
    Ctrl.leave doLeave st roomId userId = .ok st := by
  rcases h with h | h
  · simp [Ctrl.leave, Ctrl.getRoom, h]
  · unfold Ctrl.leave Ctrl.getRoom
    cases hr : st.rooms.find? (fun r => r.id == roomId) with
    | none => rfl
    | some room => simp [Ctrl.getUser, h]

/-- C9 witness: `leave` at a concrete controller that knows the room but
not the user. -/
theorem C9_leave_unknown_resolves_witness :
    Ctrl.leave (fun st _ _ => .ok { st with users := [] })
        { rooms := [⟨"wroom"⟩], users := [⟨"wuser", "wroom", .sfu⟩]
          mediaSessions := [], medias := [] }
        "wroom" "nobody"
      = .ok { rooms := [⟨"wroom"⟩], users := [⟨"wuser", "wroom", .sfu⟩]
              mediaSessions := [], medias := [] } :=
  C9_leave_unknown_resolves _ _ "wroom" "nobody" (Or.inr (by decide))

/-- C10: when both lookups succeed and either the source session's or the
sink session's owning user is of type MCU, `connect` resolves at once with
no delegation to the source session's `connect`, so no adapter-level
connection is made. -/
theorem C10_connect_mcu_short_circuit (st : Ctrl.CtrlState)
    (sourceId sinkId ty : String) (src sink : Ctrl.CSession)
    (su ku : Ctrl.CUser)
    (h1 : Ctrl.getMediaSession st sourceId = .ok src)
    (h2 : Ctrl.getMediaSession st sinkId = .ok sink)
    (h3 : Ctrl.getUser st src.userId = .ok su)
    (h4 : Ctrl.getUser st sink.userId = .ok ku)
    (h5 : su.utype = Ctrl.UserType.mcu ∨ ku.utype = Ctrl.UserType.mcu) :
    Ctrl.connect st sourceId sinkId ty = .ok [] := by
  simp only [Ctrl.connect, h1, h2, h3, h4]
  rw [if_pos h5]

/-- C10 witness: `connect` at a concrete controller where the sink session
belongs to an MCU user. -/
theorem C10_connect_mcu_short_circuit_witness :
    Ctrl.connect
        { rooms := [⟨"cr"⟩]
          users := [⟨"cu1", "cr", .sfu⟩, ⟨"cu2", "cr", .mcu⟩]
          mediaSessions := [⟨"cs1", "cu1"⟩, ⟨"cs2", "cu2"⟩], medias := [] }
        "cs1" "cs2" "ALL"
      = .ok [] :=
  C10_connect_mcu_short_circuit _ "cs1" "cs2" "ALL" ⟨"cs1", "cu1"⟩
    ⟨"cs2", "cu2"⟩ ⟨"cu1", "cr", .sfu⟩ ⟨"cu2", "cr", .mcu⟩
    rfl rfl rfl rfl (Or.inr rfl)

/-- C7: with the default timeout and code length, delivering digit `*` and
then digit `3` while the timer is still pending yields exactly one
`toggleSubtitle` call (the first delivery acts on nothing), and afterwards
the DTMF queue is empty and the timer cleared. -/
theorem C7_dtmf_star_three_toggles_subtitle :
    (Sdp.handleDtmfEvent ⟨[], false⟩ (some (.str "*"))).2 = []
      ∧ Sdp.handleDtmfEvent
          (Sdp.handleDtmfEvent ⟨[], false⟩ (some (.str "*"))).1
          (some (.str "3"))
        = (⟨[], false⟩, [Sdp.DtmfAct.toggleSubtitle]) := by
  decide
